import Mathlib

/-!
Verification of the gosilabs bit-packed token store.

Shallow embedding of the core under `src/MVP/gosiuml`:
the token record and its bitfields (`include/phenomemory_platform.h`),
the lifecycle operations (`src/core/pheno_memory.c`), the CLI state-machine
transition functions (`src/cli/cli_parser.c`), the degradation score
(`quick_fix.sh`, generated `pheno_state_machine.c`), the relation codec of
spec section 4.1, and the AVL-balanced ordered view of the hybrid index of
spec sections 4.3 and 8 (modelled from the spec, since only declarations and
sketches of it appear in the sources).

Machine integers are modelled as `Fin (2 ^ w)` matching each declared C
bitfield width; the C `float` degradation score is modelled in exact rational
arithmetic.
-/

set_option maxHeartbeats 1000000

namespace Gosilabs

/-! ## Data model, from include/phenomemory_platform.h -/

/-- PhenoTokenType: 32-bit bitfield record (header lines 26-33). -/
structure PhenoTokenType where
  category : Fin 16
  node_level : Fin 8
  cluster_id : Fin 256
  frame_ref : Fin 256
  degradation : Fin 16
  reserved : Fin 32
deriving DecidableEq

/-- PhenoRelation: four 32-bit groups of four 8-bit sub-fields each
(header lines 46-70). -/
structure PhenoRelation where
  subject_id : Fin 256
  subject_type : Fin 256
  subject_state : Fin 256
  subject_class : Fin 256
  class_id : Fin 256
  class_category : Fin 256
  class_taxonomy : Fin 256
  class_level : Fin 256
  instance_id : Fin 256
  instance_type : Fin 256
  instance_state : Fin 256
  instance_flags : Fin 256
  person_id : Fin 256
  person_role : Fin 256
  person_auth : Fin 256
  person_state : Fin 256
deriving DecidableEq

/-- Header part of PhenoTokenValue (header lines 75-82). -/
structure ValueHeader where
  data_size : Fin 65536
  encoding : Fin 16
  compression : Fin 8
  encrypted : Bool
  frame_id : Fin 65536
  timestamp : Fin 16777216
deriving DecidableEq

/-- Degradation metrics of PhenoTokenValue (header lines 85-90):
score and confidence are 10-bit, retry_count and priority 6-bit. -/
structure Metrics where
  score : Fin 1024
  confidence : Fin 1024
  retry_count : Fin 64
  priority : Fin 64
deriving DecidableEq

/-- PhenoTokenValue: header + metrics + payload (header lines 73-101).
The C payload union is viewed through its raw-byte interpretation. -/
structure PhenoTokenValue where
  header : ValueHeader
  metrics : Metrics
  data : List (Fin 256)
deriving DecidableEq

/-- Memory-management bitfield of a token (header lines 120-133).
One-bit fields become Bool; ref_count is the 8-bit reference counter. -/
structure MemFlags where
  allocated : Bool
  locked : Bool
  dirty : Bool
  pinned : Bool
  shared : Bool
  coherent : Bool
  nil_state : Bool
  null_state : Bool
  ref_count : Fin 256
  mem_zone : Fin 16
  access_level : Fin 16
deriving DecidableEq

/-- PhenoToken (header lines 104-141). The C navigation pointers
left/right/parent are modelled as optional abstract addresses; the value
payload pointer is an Option (none models a NULL value pointer). -/
structure PhenoToken where
  token_id : Fin 4294967296
  token_type : Fin 256
  token_name : String
  type : PhenoTokenType
  value : Option PhenoTokenValue
  relation : PhenoRelation
  mem_flags : MemFlags
  left : Option Nat
  right : Option Nat
  parent : Option Nat
  balance_factor : Int
deriving DecidableEq

/-- Lifecycle states (header lines 144-152), in the C enum order. -/
inductive PhenoState where
  | nil
  | allocated
  | locked
  | active
  | degraded
  | shared
  | freed
deriving DecidableEq

/-! ## Lifecycle operations, from src/core/pheno_memory.c -/

/-- Zero-initialized PhenoTokenType, as produced by calloc. -/
def zeroTokenType : PhenoTokenType :=
  { category := 0, node_level := 0, cluster_id := 0, frame_ref := 0
    degradation := 0, reserved := 0 }

/-- Zero-initialized PhenoRelation, as produced by calloc. -/
def zeroRelation : PhenoRelation :=
  { subject_id := 0, subject_type := 0, subject_state := 0, subject_class := 0
    class_id := 0, class_category := 0, class_taxonomy := 0, class_level := 0
    instance_id := 0, instance_type := 0, instance_state := 0, instance_flags := 0
    person_id := 0, person_role := 0, person_auth := 0, person_state := 0 }

/-- Zero-initialized PhenoTokenValue, as produced by
calloc(1, sizeof(PhenoTokenValue)). -/
def zeroTokenValue : PhenoTokenValue :=
  { header := { data_size := 0, encoding := 0, compression := 0
                encrypted := false, frame_id := 0, timestamp := 0 }
    metrics := { score := 0, confidence := 0, retry_count := 0, priority := 0 }
    data := [] }

/-- Zero-initialized memory flags, as produced by calloc. -/
def zeroMemFlags : MemFlags :=
  { allocated := false, locked := false, dirty := false, pinned := false
    shared := false, coherent := false, nil_state := false, null_state := false
    ref_count := 0, mem_zone := 0, access_level := 0 }

/-- gosiuml_create_token (pheno_memory.c lines 58-76), success path of both
calloc calls: the record is zero-initialized, token_type and token_name are
set, allocated := 1, ref_count := 1, and a zeroed value structure is
attached. -/
def gosiuml_create_token (ty : Fin 256) (name : String) : PhenoToken :=
  { token_id := 0
    token_type := ty
    token_name := name
    type := zeroTokenType
    value := some zeroTokenValue
    relation := zeroRelation
    mem_flags := { zeroMemFlags with allocated := true, ref_count := 1 }
    left := none
    right := none
    parent := none
    balance_factor := 0 }

/-- Observable effect of gosiuml_free_token (pheno_memory.c lines 78-85):
either nothing happened (NULL argument) or the token record was freed,
recording whether a payload buffer was freed with it. -/
inductive FreeResult where
  | noop
  | freed (payloadFreed : Bool)
deriving DecidableEq

/-- gosiuml_free_token (pheno_memory.c lines 78-85): a NULL token is a no-op;
otherwise the value buffer (when present) and the record are freed
unconditionally -- the reference count is never consulted. -/
def gosiuml_free_token : Option PhenoToken → FreeResult
  | none => .noop
  | some t => .freed t.value.isSome

/-- The degradation test inside gosiuml_get_state (pheno_memory.c line 179):
token->value && token->value->metrics.score > 600. -/
def degraded_check : Option PhenoTokenValue → Bool
  | none => false
  | some v => decide (600 < v.metrics.score.val)

/-- gosiuml_get_state (pheno_memory.c lines 173-182). -/
def gosiuml_get_state : Option PhenoToken → PhenoState
  | none => .nil
  | some t =>
    if t.mem_flags.allocated = false then .nil
    else if t.mem_flags.locked then .locked
    else if t.mem_flags.shared then .shared
    else if degraded_check t.value then .degraded
    else .active

/-- gosiuml_transition (pheno_memory.c lines 184-209): returns the C result
code (-1 on rejection, 0 on success) together with the token as left by the
call. Only targets ALLOCATED, LOCKED and FREED are implemented; every other
target falls into the default -1 branch. -/
def gosiuml_transition (t : Option PhenoToken) (new_state : PhenoState) :
    Int × Option PhenoToken :=
  match t with
  | none => (-1, none)
  | some tok =>
    let current := gosiuml_get_state (some tok)
    match new_state with
    | .allocated =>
      if current ≠ .nil then (-1, some tok)
      else (0, some { tok with mem_flags := { tok.mem_flags with allocated := true } })
    | .locked =>
      if current ≠ .allocated ∧ current ≠ .active then (-1, some tok)
      else (0, some { tok with mem_flags := { tok.mem_flags with locked := true } })
    | .freed =>
      (0, some { tok with mem_flags :=
        { tok.mem_flags with allocated := false, locked := false } })
    | _ => (-1, some tok)

/-- The set of (current state, target) pairs on which gosiuml_transition
succeeds, read off the code: target ALLOCATED requires current NIL, target
LOCKED requires current ALLOCATED or ACTIVE, target FREED always succeeds,
every other target is rejected. -/
def legal_edge (current target : PhenoState) : Bool :=
  match target with
  | .allocated => decide (current = .nil)
  | .locked => decide (current = .allocated) || decide (current = .active)
  | .freed => true
  | _ => false

/-! ## Degradation tracker, from quick_fix.sh (generated
pheno_state_machine.c) and src/cli/cli_parser.c -/

/-- calculate_degradation_score (quick_fix.sh lines 261-264): 0 for a NULL
token or a NULL value pointer, otherwise metrics.score / 1023, in exact
rational arithmetic. -/
def calculate_degradation_score : Option PhenoToken → ℚ
  | none => 0
  | some t =>
    match t.value with
    | none => 0
    | some v => (v.metrics.score.val : ℚ) / 1023

/-- verify_geometric_proof (quick_fix.sh): value present and
metrics.confidence > 100. -/
def verify_geometric_proof : Option PhenoToken → Bool
  | none => false
  | some t =>
    match t.value with
    | none => false
    | some v => decide (100 < v.metrics.confidence.val)

/-- transition_active_to_degraded (cli_parser.c lines 87-94): move to
DEGRADED when the degradation score exceeds 0.6, writing
(uint32_t)(score * 1023) back into the 10-bit metrics.score field (at exact
arithmetic the writeback stores the score value already present); otherwise
stay ACTIVE. -/
def transition_active_to_degraded (t : PhenoToken) : PhenoState × PhenoToken :=
  let degradation := calculate_degradation_score (some t)
  if degradation > 3 / 5 then
    match t.value with
    | none => (.degraded, t)
    | some v =>
      (.degraded, { t with value := some { v with metrics :=
        { v.metrics with score := ⟨⌊degradation * 1023⌋.toNat % 1024,
          Nat.mod_lt _ (by norm_num)⟩ } } })
  else (.active, t)

/-- transition_allocated_to_locked (cli_parser.c lines 72-77): a
compare-and-set of the locked flag from 0 to 1; on success the machine moves
to LOCKED, on failure it stays in ALLOCATED without blocking and without
touching the token. -/
def transition_allocated_to_locked (t : PhenoToken) : PhenoState × PhenoToken :=
  if t.mem_flags.locked = false then
    (.locked, { t with mem_flags := { t.mem_flags with locked := true } })
  else (.allocated, t)

/-! ## Bitfield relation codec -/

/-- Byte 0 (bits 0-7) of a word, as in parse_token_file:
(value >> 0) & 0xFF. -/
def byte0 (w : Nat) : Fin 256 := ⟨w % 256, Nat.mod_lt _ (by norm_num)⟩

/-- Byte 1 (bits 8-15) of a word: (value >> 8) & 0xFF. -/
def byte1 (w : Nat) : Fin 256 := ⟨w / 256 % 256, Nat.mod_lt _ (by norm_num)⟩

/-- Byte 2 (bits 16-23) of a word: (value >> 16) & 0xFF. -/
def byte2 (w : Nat) : Fin 256 := ⟨w / 65536 % 256, Nat.mod_lt _ (by norm_num)⟩

/-- Byte 3 (bits 24-31) of a word: (value >> 24) & 0xFF. -/
def byte3 (w : Nat) : Fin 256 := ⟨w / 16777216 % 256, Nat.mod_lt _ (by norm_num)⟩

/-- Modelled from the spec: encode(subject, class, instance, person) of
section 4.1 -- no encode function exists under src/, only the PhenoRelation
declaration and the byte-extracting caller parse_token_file. Each 32-bit
group is split into its four declared 8-bit sub-fields by masking, in the
same low-to-high byte order parse_token_file uses for its shifts; inputs are
masked, never rejected. -/
def pheno_relation_encode (subject cls inst person : Nat) : PhenoRelation :=
  { subject_id := byte0 subject
    subject_type := byte1 subject
    subject_state := byte2 subject
    subject_class := byte3 subject
    class_id := byte0 cls
    class_category := byte1 cls
    class_taxonomy := byte2 cls
    class_level := byte3 cls
    instance_id := byte0 inst
    instance_type := byte1 inst
    instance_state := byte2 inst
    instance_flags := byte3 inst
    person_id := byte0 person
    person_role := byte1 person
    person_auth := byte2 person
    person_state := byte3 person }

/-- Repack four 8-bit sub-fields into one 32-bit group word. -/
def groupWord (b0 b1 b2 b3 : Fin 256) : Nat :=
  b0.val + b1.val * 256 + b2.val * 65536 + b3.val * 16777216

/-- Modelled from the spec: decode(relation_block) of section 4.1, returning
the four 32-bit group words (subject, class, instance, person). -/
def pheno_relation_decode (r : PhenoRelation) : Nat × Nat × Nat × Nat :=
  (groupWord r.subject_id r.subject_type r.subject_state r.subject_class,
   groupWord r.class_id r.class_category r.class_taxonomy r.class_level,
   groupWord r.instance_id r.instance_type r.instance_state r.instance_flags,
   groupWord r.person_id r.person_role r.person_auth r.person_state)

/-! ## Ordered (AVL) view of the hybrid index

Modelled from the spec: sections 4.3 and 8 describe classic AVL insertion
and removal with single/double rotations restoring the balance invariant.
No complete insert/remove implementation exists under src/ -- the sources
only declare the balance_factor field (phenomemory_platform.h lines 135-141)
and sketch avl_rotate_for_balance in a design document. Keys are modelled as
naturals; duplicates are rejected by leaving the tree unchanged. -/

/-- A node of the ordered view: key plus left/right children. -/
inductive AvlTree where
  | leaf
  | node (l : AvlTree) (key : Nat) (r : AvlTree)
deriving DecidableEq

/-- Height of a subtree (leaf = 0). -/
def AvlTree.height : AvlTree → Nat
  | .leaf => 0
  | .node l _ r => max l.height r.height + 1

/-- The signed height difference stored as balance_factor in the C token
record (left height minus right height). -/
def AvlTree.balance_factor : AvlTree → Int
  | .leaf => 0
  | .node l _ r => (l.height : Int) - r.height

/-- The AVL balance invariant: at every node the two child heights differ by
at most one. -/
def AvlTree.avl : AvlTree → Bool
  | .leaf => true
  | .node l _ r =>
    decide (l.height ≤ r.height + 1) && decide (r.height ≤ l.height + 1)
      && l.avl && r.avl

/-- Rebalance a node whose left subtree may have become two levels taller
than the right: the classic AVL single right rotation (LL) or double
left-right rotation (LR), selected by comparing child heights. -/
def balL (l : AvlTree) (a : Nat) (r : AvlTree) : AvlTree :=
  if l.height = r.height + 2 then
    match l with
    | .leaf => .node l a r
    | .node t1 b t2 =>
      if t2.height ≤ t1.height then .node t1 b (.node t2 a r)
      else
        match t2 with
        | .leaf => .node l a r
        | .node t2l c t2r => .node (.node t1 b t2l) c (.node t2r a r)
  else .node l a r

/-- Rebalance a node whose right subtree may have become two levels taller
than the left: single left rotation (RR) or double right-left rotation
(RL). -/
def balR (l : AvlTree) (a : Nat) (r : AvlTree) : AvlTree :=
  if r.height = l.height + 2 then
    match r with
    | .leaf => .node l a r
    | .node t1 b t2 =>
      if t1.height ≤ t2.height then .node (.node l a t1) b t2
      else
        match t1 with
        | .leaf => .node l a r
        | .node t1l c t1r => .node (.node l a t1l) c (.node t1r b t2)
  else .node l a r

/-- AVL insertion into the ordered view; an already-present key leaves the
tree unchanged (the index rejects duplicates). -/
def AvlTree.insert (x : Nat) : AvlTree → AvlTree
  | .leaf => .node .leaf x .leaf
  | .node l a r =>
    if x < a then balL (l.insert x) a r
    else if a < x then balR l a (r.insert x)
    else .node l a r

/-- Remove and return the maximal key of the nonempty tree (node l a r),
rebalancing on the way back up. -/
def split_max (l : AvlTree) (a : Nat) (r : AvlTree) : AvlTree × Nat :=
  match r with
  | .leaf => (l, a)
  | .node rl b rr =>
    (balL l a (split_max rl b rr).1, (split_max rl b rr).2)

/-- AVL removal from the ordered view; a missing key leaves the tree
unchanged. A two-child root is replaced by the maximum of its left
subtree. -/
def AvlTree.delete (x : Nat) : AvlTree → AvlTree
  | .leaf => .leaf
  | .node l a r =>
    if x < a then balR (l.delete x) a r
    else if a < x then balL l a (r.delete x)
    else
      match l with
      | .leaf => r
      | .node ll b lr => balR (split_max ll b lr).1 (split_max ll b lr).2 r

/-- One structural operation on the ordered view. -/
inductive IndexOp where
  | ins (k : Nat)
  | rem (k : Nat)
deriving DecidableEq

/-- Apply one insert or remove. -/
def applyOp (t : AvlTree) : IndexOp → AvlTree
  | .ins k => t.insert k
  | .rem k => t.delete k

/-- Apply a whole sequence of inserts and removes to the initially empty
ordered view. -/
def applyOps (ops : List IndexOp) : AvlTree :=
  ops.foldl applyOp .leaf

/-- All node subtrees of a tree (each standing for one token record of the
ordered view, carrying its balance_factor). -/
def AvlTree.subtrees : AvlTree → List AvlTree
  | .leaf => []
  | .node l k r => AvlTree.node l k r :: (l.subtrees ++ r.subtrees)

/-- The insertion sequence of the spec section 8 scenario, followed by one
removal, used as a concrete witness workload. -/
def demoOps : List IndexOp :=
  [.ins 5, .ins 3, .ins 8, .ins 1, .ins 4, .ins 7, .ins 9, .rem 3]

/-! ## Sample tokens used as concrete inputs -/

/-- Memory flags of a freshly created live token. -/
def sampleFlags : MemFlags :=
  { zeroMemFlags with allocated := true, ref_count := 1 }

/-- A token with the given flags and payload and all other fields zeroed. -/
def sampleToken (f : MemFlags) (v : Option PhenoTokenValue) : PhenoToken :=
  { token_id := 0
    token_type := 1
    token_name := "SAMPLE"
    type := zeroTokenType
    value := v
    relation := zeroRelation
    mem_flags := f
    left := none
    right := none
    parent := none
    balance_factor := 0 }

/-- A zeroed value carrying a given 10-bit degradation score. -/
def valueWithScore (s : Fin 1024) : PhenoTokenValue :=
  { zeroTokenValue with metrics := { zeroTokenValue.metrics with score := s } }

/-- A live unlocked token whose metrics.score is 601: above the code's
600 threshold, below the spec's 0.6 * 1023. -/
def sampleScore601 : PhenoToken := sampleToken sampleFlags (some (valueWithScore 601))

/-- A live unlocked token whose metrics.score is 700 (well degraded). -/
def sampleScore700 : PhenoToken := sampleToken sampleFlags (some (valueWithScore 700))

/-- A live token whose locked flag is set: gosiuml_get_state reports
LOCKED. -/
def sampleLockedToken : PhenoToken :=
  sampleToken { sampleFlags with locked := true } (some zeroTokenValue)

/-- A live token with reference count 2. -/
def sampleRefTwoToken : PhenoToken :=
  sampleToken { sampleFlags with ref_count := 2 } (some zeroTokenValue)

/-- A live token whose value pointer is NULL. -/
def sampleNoValueToken : PhenoToken := sampleToken sampleFlags none

/-- A live token with both locked and shared flags set. -/
def sampleLockedSharedToken : PhenoToken :=
  sampleToken { sampleFlags with locked := true, shared := true }
    (some zeroTokenValue)

/-- A live unlocked shared token with a degraded score. -/
def sampleSharedDegradedToken : PhenoToken :=
  sampleToken { sampleFlags with shared := true } (some (valueWithScore 900))

/-! ## Claims about the lifecycle operations -/

/-- C1 counterexample: the spec's legal-edge table lists LOCKED → ACTIVE,
but gosiuml_transition rejects every request targeting ACTIVE; on a token
whose current state is LOCKED the call returns -1. -/
theorem transition_locked_to_active_fails :
    gosiuml_get_state (some sampleLockedToken) = .locked
  ∧ (gosiuml_transition (some sampleLockedToken) .active).1 = -1 := by
  exact ⟨rfl, rfl⟩

/-- C1 (amended): gosiuml_transition succeeds exactly when the pair
(current state, target) is NIL → ALLOCATED, ALLOCATED → LOCKED,
ACTIVE → LOCKED, or any state → FREED; every other pair returns -1 and
leaves the token (state and flags) unchanged. -/
theorem gosiuml_transition_characterization (t : PhenoToken) (target : PhenoState) :
    ((gosiuml_transition (some t) target).1 = 0 ↔
      legal_edge (gosiuml_get_state (some t)) target = true)
  ∧ ((gosiuml_transition (some t) target).1 ≠ 0 →
      (gosiuml_transition (some t) target).2 = some t) := by
  cases target <;>
    simp only [gosiuml_transition, legal_edge] <;>
    (try split_ifs) <;> simp_all
  tauto

/-- C1 witness: a request targeting SHARED fails and leaves the concrete
token untouched. -/
theorem gosiuml_transition_characterization_witness :
    (gosiuml_transition (some sampleScore700) PhenoState.shared).2
      = some sampleScore700 :=
  (gosiuml_transition_characterization sampleScore700 .shared).2 (by decide)

/-- C2 counterexample: immediately after gosiuml_create_token the state
query reports ACTIVE, not ALLOCATED (the code's own test
gosiuml_test_state_machine expects exactly this). -/
theorem create_token_state_not_allocated :
    gosiuml_get_state (some (gosiuml_create_token 1 "TEST")) = .active
  ∧ gosiuml_get_state (some (gosiuml_create_token 1 "TEST")) ≠ .allocated := by
  exact ⟨rfl, by decide⟩

/-- C2 (amended): for every type tag and name, the created token has
allocated = 1 and reference count 1, and querying its state right after
create returns ACTIVE (gosiuml_get_state never reports ALLOCATED). -/
theorem create_token_flags_and_state (ty : Fin 256) (name : String) :
    (gosiuml_create_token ty name).mem_flags.allocated = true
  ∧ (gosiuml_create_token ty name).mem_flags.ref_count = 1
  ∧ gosiuml_get_state (some (gosiuml_create_token ty name)) = .active := by
  exact ⟨rfl, rfl, rfl⟩

/-- C3 counterexample: at metrics.score = 601 the degradation score
601 / 1023 does not exceed 0.6, yet gosiuml_get_state already reports the
token as DEGRADED -- the code's reporting threshold is score > 600. -/
theorem get_state_degraded_at_601 :
    calculate_degradation_score (some sampleScore601) ≤ 3 / 5
  ∧ gosiuml_get_state (some sampleScore601) = .degraded := by
  constructor
  · rw [show calculate_degradation_score (some sampleScore601) = (601 : ℚ) / 1023 from rfl]
    norm_num
  · rfl

/-- C3 (amended): for a live, unlocked, unshared token with a payload, the
cli transition function moves ACTIVE to DEGRADED exactly when
metrics.score / 1023 exceeds 0.6, but gosiuml_get_state reports DEGRADED
exactly when metrics.score > 600; the thresholds disagree on scores
601..613. -/
theorem degraded_thresholds (t : PhenoToken) (v : PhenoTokenValue)
    (hv : t.value = some v)
    (ha : t.mem_flags.allocated = true)
    (hl : t.mem_flags.locked = false)
    (hs : t.mem_flags.shared = false) :
    ((transition_active_to_degraded t).1 = .degraded ↔
      (v.metrics.score.val : ℚ) / 1023 > 3 / 5)
  ∧ (gosiuml_get_state (some t) = .degraded ↔ 600 < v.metrics.score.val) := by
  constructor
  · simp only [transition_active_to_degraded, calculate_degradation_score, hv]
    split_ifs with h
    · simpa using h
    · simpa using h
  · simp only [gosiuml_get_state, ha, hl, hs, degraded_check, hv]
    by_cases h : 600 < v.metrics.score.val <;> simp [h]

/-- C3 witness: a token with score 700 both transitions to and is reported
as DEGRADED. -/
theorem degraded_thresholds_witness :
    (transition_active_to_degraded sampleScore700).1 = .degraded
  ∧ gosiuml_get_state (some sampleScore700) = .degraded := by
  have h := degraded_thresholds sampleScore700 (valueWithScore 700) rfl rfl rfl rfl
  refine ⟨h.1.mpr ?_, h.2.mpr (by decide)⟩
  rw [show ((valueWithScore 700).metrics.score.val : ℚ) = 700 from rfl]
  norm_num

/-- C4: the degradation score is metrics.score / 1023, always lies in
[0, 1], and a token whose value pointer is NULL scores exactly 0. -/
theorem degradation_score_range (t : Option PhenoToken) :
    0 ≤ calculate_degradation_score t
  ∧ calculate_degradation_score t ≤ 1
  ∧ (∀ tok : PhenoToken, tok.value = none →
      calculate_degradation_score (some tok) = 0)
  ∧ (∀ tok : PhenoToken, ∀ v : PhenoTokenValue, tok.value = some v →
      calculate_degradation_score (some tok) = (v.metrics.score.val : ℚ) / 1023) := by
  refine ⟨?_, ?_, ?_, ?_⟩
  · cases t with
    | none => simp [calculate_degradation_score]
    | some tok =>
      cases hv : tok.value with
      | none => simp [calculate_degradation_score, hv]
      | some v =>
        simp only [calculate_degradation_score, hv]
        positivity
  · cases t with
    | none => simp [calculate_degradation_score]
    | some tok =>
      cases hv : tok.value with
      | none => simp [calculate_degradation_score, hv]
      | some v =>
        simp only [calculate_degradation_score, hv]
        rw [div_le_one (by norm_num)]
        exact_mod_cast Nat.le_of_lt_succ v.metrics.score.isLt
  · intro tok h
    simp [calculate_degradation_score, h]
  · intro tok v h
    simp [calculate_degradation_score, h]

/-- C4 witness: a live token with a NULL value pointer scores 0. -/
theorem degradation_score_range_witness :
    calculate_degradation_score (some sampleNoValueToken) = 0 :=
  (degradation_score_range (some sampleNoValueToken)).2.2.1 sampleNoValueToken rfl

/-- C6: the first compare-and-set lock acquisition on an unlocked live token
succeeds and sets the locked flag; a second LOCKED request then fails
immediately -- the compare-and-set returns without mutating the token and
gosiuml_transition returns -1 leaving it unchanged -- and the token remains
in the LOCKED state. -/
theorem double_lock_fails (t : PhenoToken)
    (ha : t.mem_flags.allocated = true) (hl : t.mem_flags.locked = false) :
    (transition_allocated_to_locked t).1 = .locked
  ∧ (transition_allocated_to_locked t).2.mem_flags.locked = true
  ∧ (transition_allocated_to_locked ((transition_allocated_to_locked t).2)).1
      = .allocated
  ∧ (transition_allocated_to_locked ((transition_allocated_to_locked t).2)).2
      = (transition_allocated_to_locked t).2
  ∧ (gosiuml_transition (some ((transition_allocated_to_locked t).2)) .locked).1
      = -1
  ∧ (gosiuml_transition (some ((transition_allocated_to_locked t).2)) .locked).2
      = some ((transition_allocated_to_locked t).2)
  ∧ gosiuml_get_state (some ((transition_allocated_to_locked t).2)) = .locked := by
  simp [transition_allocated_to_locked, gosiuml_transition, gosiuml_get_state,
    ha, hl]

/-- C6 witness: locking a freshly created token, then re-requesting LOCKED,
leaves it reported as LOCKED. -/
theorem double_lock_fails_witness :
    gosiuml_get_state
      (some ((transition_allocated_to_locked (gosiuml_create_token 1 "T")).2))
      = .locked :=
  (double_lock_fails (gosiuml_create_token 1 "T") rfl rfl).2.2.2.2.2.2

/-- C7 counterexample: gosiuml_free_token frees a token whose reference
count is 2 -- there is no still-referenced error and the record and payload
are released anyway. -/
theorem free_token_ignores_ref_count :
    sampleRefTwoToken.mem_flags.ref_count.val = 2
  ∧ gosiuml_free_token (some sampleRefTwoToken) = .freed true
  ∧ gosiuml_free_token (some sampleRefTwoToken) ≠ .noop := by
  exact ⟨rfl, rfl, by decide⟩

/-- C7 (amended): for every non-null token, gosiuml_free_token frees the
record unconditionally, freeing the payload buffer exactly when one is
attached; the reference count is never consulted and no still-referenced
error exists (the C function returns void). -/
theorem free_token_unconditional (t : PhenoToken) :
    gosiuml_free_token (some t) = .freed t.value.isSome
  ∧ gosiuml_free_token (some t) ≠ .noop := by
  exact ⟨rfl, by simp [gosiuml_free_token]⟩

/-- C9: gosiuml_get_state is total and only ever returns NIL, LOCKED,
SHARED, DEGRADED or ACTIVE (never ALLOCATED or FREED); a NULL pointer and a
token with allocated = 0 both map to NIL, locked takes precedence over
shared, and shared takes precedence over the degradation check. -/
theorem get_state_total_and_precedence :
    (∀ t : Option PhenoToken,
      gosiuml_get_state t ≠ .allocated ∧ gosiuml_get_state t ≠ .freed)
  ∧ gosiuml_get_state none = .nil
  ∧ (∀ tok : PhenoToken, tok.mem_flags.allocated = false →
      gosiuml_get_state (some tok) = .nil)
  ∧ (∀ tok : PhenoToken, tok.mem_flags.allocated = true →
      tok.mem_flags.locked = true → gosiuml_get_state (some tok) = .locked)
  ∧ (∀ tok : PhenoToken, tok.mem_flags.allocated = true →
      tok.mem_flags.locked = false → tok.mem_flags.shared = true →
      gosiuml_get_state (some tok) = .shared) := by
  refine ⟨?_, rfl, ?_, ?_, ?_⟩
  · intro t
    cases t with
    | none => simp [gosiuml_get_state]
    | some tok =>
      simp only [gosiuml_get_state]
      split_ifs <;> simp
  · intro tok h
    simp [gosiuml_get_state, h]
  · intro tok h1 h2
    simp [gosiuml_get_state, h1, h2]
  · intro tok h1 h2 h3
    simp [gosiuml_get_state, h1, h2, h3]

/-- C9 witness: a locked-and-shared token reports LOCKED; an unlocked shared
token with degraded score reports SHARED. -/
theorem get_state_total_and_precedence_witness :
    gosiuml_get_state (some sampleLockedSharedToken) = .locked
  ∧ gosiuml_get_state (some sampleSharedDegradedToken) = .shared :=
  ⟨get_state_total_and_precedence.2.2.2.1 sampleLockedSharedToken rfl rfl,
   get_state_total_and_precedence.2.2.2.2 sampleSharedDegradedToken rfl rfl rfl⟩

/-- C10: for every non-null token in any state, a transition request to
FREED returns 0 and replaces the flags by the same flags with allocated and
locked cleared; the reference count, the shared/dirty/pinned flags, the
value payload pointer (not released), the navigation links and the balance
factor all keep their prior values. -/
theorem transition_freed_frame (t : PhenoToken) :
    gosiuml_transition (some t) PhenoState.freed =
      (0, some { t with mem_flags :=
        { t.mem_flags with allocated := false, locked := false } })
  ∧ ({ t.mem_flags with allocated := false, locked := false } : MemFlags).allocated
      = false
  ∧ ({ t.mem_flags with allocated := false, locked := false } : MemFlags).locked
      = false
  ∧ ({ t.mem_flags with allocated := false, locked := false } : MemFlags).ref_count
      = t.mem_flags.ref_count
  ∧ ({ t.mem_flags with allocated := false, locked := false } : MemFlags).shared
      = t.mem_flags.shared
  ∧ ({ t.mem_flags with allocated := false, locked := false } : MemFlags).dirty
      = t.mem_flags.dirty
  ∧ ({ t.mem_flags with allocated := false, locked := false } : MemFlags).pinned
      = t.mem_flags.pinned
  ∧ ({ t with mem_flags :=
        { t.mem_flags with allocated := false, locked := false } } : PhenoToken).value
      = t.value
  ∧ ({ t with mem_flags :=
        { t.mem_flags with allocated := false, locked := false } } : PhenoToken).left
      = t.left
  ∧ ({ t with mem_flags :=
        { t.mem_flags with allocated := false, locked := false } } : PhenoToken).right
      = t.right
  ∧ ({ t with mem_flags :=
        { t.mem_flags with allocated := false, locked := false } } : PhenoToken).parent
      = t.parent
  ∧ ({ t with mem_flags :=
        { t.mem_flags with allocated := false, locked := false } } : PhenoToken).balance_factor
      = t.balance_factor := by
  exact ⟨rfl, rfl, rfl, rfl, rfl, rfl, rfl, rfl, rfl, rfl, rfl, rfl⟩

/-! ## Claim about the relation codec -/

/-- C5: decoding an encoded relation block returns the four group words
whenever each fits its declared width (so each 8-bit sub-field fits); any
oversized input is deterministically truncated by masking to its low bits --
encode is total and never rejects. -/
theorem relation_codec_roundtrip (s c i p : Nat) :
    (s < 4294967296 → c < 4294967296 → i < 4294967296 → p < 4294967296 →
      pheno_relation_decode (pheno_relation_encode s c i p) = (s, c, i, p))
  ∧ pheno_relation_encode s c i p =
      pheno_relation_encode (s % 4294967296) (c % 4294967296)
        (i % 4294967296) (p % 4294967296) := by
  constructor
  · intro hs hc hi hp
    simp only [pheno_relation_encode, pheno_relation_decode, groupWord,
      byte0, byte1, byte2, byte3, Prod.mk.injEq]
    omega
  · simp only [pheno_relation_encode, PhenoRelation.mk.injEq,
      byte0, byte1, byte2, byte3, Fin.mk.injEq]
    omega

/-! ## Claim about the ordered (AVL) view: balance lemmas -/

/-- Unfolding of the balance predicate at a node. -/
theorem avl_node_iff (l r : AvlTree) (a : Nat) :
    (AvlTree.node l a r).avl = true ↔
      l.height ≤ r.height + 1 ∧ r.height ≤ l.height + 1
        ∧ l.avl = true ∧ r.avl = true := by
  simp [AvlTree.avl, and_assoc]

/-- Unfolding of the height at a node. -/
theorem height_node (l r : AvlTree) (a : Nat) :
    (AvlTree.node l a r).height = max l.height r.height + 1 := rfl

/-- balL does not rotate unless the left side is exactly two levels
taller. -/
theorem balL_of_ne (l r : AvlTree) (a : Nat) (h : l.height ≠ r.height + 2) :
    balL l a r = .node l a r := by
  unfold balL
  rw [if_neg h]

/-- balL restores the balance invariant whenever the left side is at most
two levels taller and the right at most one. -/
theorem avl_balL (l r : AvlTree) (a : Nat)
    (hl : l.avl = true) (hr : r.avl = true)
    (hh : l.height = r.height ∨ l.height = r.height + 1
        ∨ r.height = l.height + 1 ∨ l.height = r.height + 2) :
    (balL l a r).avl = true := by
  by_cases h2 : l.height = r.height + 2
  · unfold balL
    rw [if_pos h2]
    cases l with
    | leaf => simp [AvlTree.height] at h2
    | node t1 b t2 =>
      dsimp only
      rw [avl_node_iff] at hl
      obtain ⟨hb1, hb2, hat1, hat2⟩ := hl
      simp only [height_node] at h2
      by_cases hle : t2.height ≤ t1.height
      · rw [if_pos hle]
        simp only [avl_node_iff, height_node]
        exact ⟨by omega, by omega, hat1, by omega, by omega, hat2, hr⟩
      · rw [if_neg hle]
        cases t2 with
        | leaf => simp [AvlTree.height] at hle
        | node t2l c t2r =>
          dsimp only
          rw [avl_node_iff] at hat2
          obtain ⟨hc1, hc2, hat2l, hat2r⟩ := hat2
          simp only [height_node] at h2 hle hb1 hb2
          simp only [avl_node_iff, height_node]
          exact ⟨by omega, by omega, ⟨by omega, by omega, hat1, hat2l⟩,
            by omega, by omega, hat2r, hr⟩
  · rw [balL_of_ne l r a h2, avl_node_iff]
    exact ⟨by omega, by omega, hl, hr⟩

/-- Height of the result of a rotating balL call. -/
theorem height_balL (l r : AvlTree) (a : Nat)
    (hl : l.avl = true) (h2 : l.height = r.height + 2) :
    (balL l a r).height = r.height + 2 ∨ (balL l a r).height = r.height + 3 := by
  unfold balL
  rw [if_pos h2]
  cases l with
  | leaf => simp [AvlTree.height] at h2
  | node t1 b t2 =>
    dsimp only
    rw [avl_node_iff] at hl
    obtain ⟨hb1, hb2, hat1, hat2⟩ := hl
    simp only [height_node] at h2
    by_cases hle : t2.height ≤ t1.height
    · rw [if_pos hle]
      simp only [height_node]
      omega
    · rw [if_neg hle]
      cases t2 with
      | leaf => simp [AvlTree.height] at hle
      | node t2l c t2r =>
        dsimp only
        rw [avl_node_iff] at hat2
        obtain ⟨hc1, hc2, hd1, hd2⟩ := hat2
        simp only [height_node] at h2 hle hb1 hb2
        simp only [height_node]
        omega

/-- Height of the result of a non-rotating balL call. -/
theorem height_balL2 (l r : AvlTree) (a : Nat) (h : l.height ≠ r.height + 2) :
    (balL l a r).height = max l.height r.height + 1 := by
  rw [balL_of_ne l r a h, height_node]

/-- balR does not rotate unless the right side is exactly two levels
taller. -/
theorem balR_of_ne (l r : AvlTree) (a : Nat) (h : r.height ≠ l.height + 2) :
    balR l a r = .node l a r := by
  unfold balR
  rw [if_neg h]

/-- balR restores the balance invariant whenever the right side is at most
two levels taller and the left at most one. -/
theorem avl_balR (l r : AvlTree) (a : Nat)
    (hl : l.avl = true) (hr : r.avl = true)
    (hh : r.height = l.height ∨ r.height = l.height + 1
        ∨ l.height = r.height + 1 ∨ r.height = l.height + 2) :
    (balR l a r).avl = true := by
  by_cases h2 : r.height = l.height + 2
  · unfold balR
    rw [if_pos h2]
    cases r with
    | leaf => simp [AvlTree.height] at h2
    | node t1 b t2 =>
      dsimp only
      rw [avl_node_iff] at hr
      obtain ⟨hb1, hb2, hat1, hat2⟩ := hr
      simp only [height_node] at h2
      by_cases hle : t1.height ≤ t2.height
      · rw [if_pos hle]
        simp only [avl_node_iff, height_node]
        exact ⟨by omega, by omega, ⟨by omega, by omega, hl, hat1⟩, hat2⟩
      · rw [if_neg hle]
        cases t1 with
        | leaf => simp [AvlTree.height] at hle
        | node t1l c t1r =>
          dsimp only
          rw [avl_node_iff] at hat1
          obtain ⟨hc1, hc2, hat1l, hat1r⟩ := hat1
          simp only [height_node] at h2 hle hb1 hb2
          simp only [avl_node_iff, height_node]
          exact ⟨by omega, by omega, ⟨by omega, by omega, hl, hat1l⟩,
            by omega, by omega, hat1r, hat2⟩
  · rw [balR_of_ne l r a h2, avl_node_iff]
    exact ⟨by omega, by omega, hl, hr⟩

/-- Height of the result of a rotating balR call. -/
theorem height_balR (l r : AvlTree) (a : Nat)
    (hr : r.avl = true) (h2 : r.height = l.height + 2) :
    (balR l a r).height = l.height + 2 ∨ (balR l a r).height = l.height + 3 := by
  unfold balR
  rw [if_pos h2]
  cases r with
  | leaf => simp [AvlTree.height] at h2
  | node t1 b t2 =>
    dsimp only
    rw [avl_node_iff] at hr
    obtain ⟨hb1, hb2, hat1, hat2⟩ := hr
    simp only [height_node] at h2
    by_cases hle : t1.height ≤ t2.height
    · rw [if_pos hle]
      simp only [height_node]
      omega
    · rw [if_neg hle]
      cases t1 with
      | leaf => simp [AvlTree.height] at hle
      | node t1l c t1r =>
        dsimp only
        rw [avl_node_iff] at hat1
        obtain ⟨hc1, hc2, hd1, hd2⟩ := hat1
        simp only [height_node] at h2 hle hb1 hb2
        simp only [height_node]
        omega

/-- Height of the result of a non-rotating balR call. -/
theorem height_balR2 (l r : AvlTree) (a : Nat) (h : r.height ≠ l.height + 2) :
    (balR l a r).height = max l.height r.height + 1 := by
  rw [balR_of_ne l r a h, height_node]

/-- AVL insertion preserves the balance invariant and grows the height by at
most one. -/
theorem avl_insert (x : Nat) (t : AvlTree) (h : t.avl = true) :
    (t.insert x).avl = true
      ∧ ((t.insert x).height = t.height ∨ (t.insert x).height = t.height + 1) := by
  induction t with
  | leaf =>
    constructor
    · rfl
    · simp [AvlTree.insert, AvlTree.height]
  | node l a r ihl ihr =>
    rw [avl_node_iff] at h
    obtain ⟨h1, h2, hal, har⟩ := h
    obtain ⟨ial, ihtl⟩ := ihl hal
    obtain ⟨iar, ihtr⟩ := ihr har
    simp only [AvlTree.insert]
    split_ifs with hlt hgt
    · constructor
      · exact avl_balL (l.insert x) r a ial har (by omega)
      · by_cases hc : (l.insert x).height = r.height + 2
        · have hb := height_balL (l.insert x) r a ial hc
          simp only [height_node]
          omega
        · have hb := height_balL2 (l.insert x) r a hc
          simp only [height_node]
          omega
    · constructor
      · exact avl_balR l (r.insert x) a hal iar (by omega)
      · by_cases hc : (r.insert x).height = l.height + 2
        · have hb := height_balR l (r.insert x) a iar hc
          simp only [height_node]
          omega
        · have hb := height_balR2 l (r.insert x) a hc
          simp only [height_node]
          omega
    · exact ⟨(avl_node_iff l r a).mpr ⟨h1, h2, hal, har⟩, Or.inl rfl⟩

/-- split_max of a balanced nonempty tree is balanced and shrinks the height
by at most one. -/
theorem split_max_spec (r : AvlTree) : ∀ (l : AvlTree) (a : Nat),
    l.avl = true → r.avl = true →
    l.height ≤ r.height + 1 → r.height ≤ l.height + 1 →
    (split_max l a r).1.avl = true
      ∧ (max l.height r.height + 1 = (split_max l a r).1.height
         ∨ max l.height r.height + 1 = (split_max l a r).1.height + 1) := by
  induction r with
  | leaf =>
    intro l a hl _ hd1 hd2
    refine ⟨hl, ?_⟩
    simp only [split_max, AvlTree.height]
    omega
  | node rl b rr ihl ihr =>
    intro l a hl hr hd1 hd2
    rw [avl_node_iff] at hr
    obtain ⟨hr1, hr2, harl, harr⟩ := hr
    obtain ⟨ia, iht⟩ := ihr rl b harl harr hr1 hr2
    simp only [split_max]
    constructor
    · apply avl_balL l (split_max rl b rr).1 a hl ia
      simp only [height_node] at hd1 hd2
      omega
    · by_cases hc : l.height = (split_max rl b rr).1.height + 2
      · have hb := height_balL l (split_max rl b rr).1 a hl hc
        simp only [height_node] at hd1 hd2 ⊢
        omega
      · have hb := height_balL2 l (split_max rl b rr).1 a hc
        simp only [height_node] at hd1 hd2 ⊢
        omega

/-- AVL removal preserves the balance invariant and shrinks the height by at
most one. -/
theorem avl_delete (x : Nat) (t : AvlTree) (h : t.avl = true) :
    (t.delete x).avl = true
      ∧ (t.height = (t.delete x).height ∨ t.height = (t.delete x).height + 1) := by
  induction t with
  | leaf => exact ⟨rfl, Or.inl rfl⟩
  | node l a r ihl ihr =>
    rw [avl_node_iff] at h
    obtain ⟨h1, h2, hal, har⟩ := h
    simp only [AvlTree.delete]
    split_ifs with hlt hgt
    · obtain ⟨ia, iht⟩ := ihl hal
      constructor
      · exact avl_balR (l.delete x) r a ia har (by omega)
      · by_cases hc : r.height = (l.delete x).height + 2
        · have hb := height_balR (l.delete x) r a har hc
          simp only [height_node]
          omega
        · have hb := height_balR2 (l.delete x) r a hc
          simp only [height_node]
          omega
    · obtain ⟨ia, iht⟩ := ihr har
      constructor
      · exact avl_balL l (r.delete x) a hal ia (by omega)
      · by_cases hc : l.height = (r.delete x).height + 2
        · have hb := height_balL l (r.delete x) a hal hc
          simp only [height_node]
          omega
        · have hb := height_balL2 l (r.delete x) a hc
          simp only [height_node]
          omega
    · cases l with
      | leaf =>
        dsimp only
        refine ⟨har, ?_⟩
        simp only [height_node, AvlTree.height]
        omega
      | node ll b lr =>
        dsimp only
        rw [avl_node_iff] at hal
        obtain ⟨hll, hlr, hall, halr⟩ := hal
        obtain ⟨sa, sh⟩ := split_max_spec lr ll b hall halr hll hlr
        constructor
        · apply avl_balR (split_max ll b lr).1 r (split_max ll b lr).2 sa har
          simp only [height_node] at h1 h2
          omega
        · by_cases hc : r.height = (split_max ll b lr).1.height + 2
          · have hb := height_balR (split_max ll b lr).1 r (split_max ll b lr).2 har hc
            simp only [height_node] at h1 h2 ⊢
            omega
          · have hb := height_balR2 (split_max ll b lr).1 r (split_max ll b lr).2 hc
            simp only [height_node] at h1 h2 ⊢
            omega

/-- In a balanced tree every node's balance factor is -1, 0 or 1. -/
theorem avl_subtrees (t : AvlTree) (h : t.avl = true) :
    ∀ s ∈ t.subtrees,
      s.balance_factor = -1 ∨ s.balance_factor = 0 ∨ s.balance_factor = 1 := by
  induction t with
  | leaf => intro s hs; simp [AvlTree.subtrees] at hs
  | node l a r ihl ihr =>
    rw [avl_node_iff] at h
    obtain ⟨h1, h2, hal, har⟩ := h
    intro s hs
    simp only [AvlTree.subtrees, List.mem_cons, List.mem_append] at hs
    rcases hs with rfl | hs | hs
    · simp only [AvlTree.balance_factor]
      omega
    · exact ihl hal s hs
    · exact ihr har s hs

/-- Any sequence of inserts and removes starting from the empty ordered view
yields a balanced tree. -/
theorem avl_applyOps (ops : List IndexOp) : (applyOps ops).avl = true := by
  suffices h : ∀ t : AvlTree, t.avl = true → (List.foldl applyOp t ops).avl = true by
    exact h .leaf rfl
  induction ops with
  | nil => intro t ht; simpa using ht
  | cons op rest ih =>
    intro t ht
    rw [List.foldl_cons]
    cases op with
    | ins k => exact ih _ (avl_insert k t ht).1
    | rem k => exact ih _ (avl_delete k t ht).1

/-- C8: after every sequence of insert and remove operations on the ordered
view of the hybrid index, every node has balance_factor in -1, 0 or 1 --
in particular the invariant holds immediately after each individual insert
or remove, since every prefix of the sequence is itself such a sequence. -/
theorem balance_factor_after_ops (ops : List IndexOp) (s : AvlTree)
    (hs : s ∈ (applyOps ops).subtrees) :
    s.balance_factor = -1 ∨ s.balance_factor = 0 ∨ s.balance_factor = 1 :=
  avl_subtrees (applyOps ops) (avl_applyOps ops) s hs

/-- C8 witness: the root after the spec section 8 workload (insert
5,3,8,1,4,7,9, then remove 3) has a balance factor in -1, 0, 1. -/
theorem balance_factor_after_ops_witness :
    (applyOps demoOps).balance_factor = -1
  ∨ (applyOps demoOps).balance_factor = 0
  ∨ (applyOps demoOps).balance_factor = 1 :=
  balance_factor_after_ops demoOps (applyOps demoOps) (by decide)

/-- C5 witness: a concrete round trip through the codec. -/
theorem relation_codec_roundtrip_witness :
    pheno_relation_decode
      (pheno_relation_encode 305419896 2271560481 3405691582 19088743)
      = (305419896, 2271560481, 3405691582, 19088743) :=
  (relation_codec_roundtrip 305419896 2271560481 3405691582 19088743).1
    (by norm_num) (by norm_num) (by norm_num) (by norm_num)

end Gosilabs
